import Mathlib

/-!
Shallow embedding of `jsonrpcbase` (src/jsonrpcbase/main.py): a transport-free
JSON-RPC 2.0 / 1.1 service core.  Python dicts are modelled as association
lists looked up by first match (JSON objects have unique keys), Python
exceptions as `Except` values, and handler functions as Lean functions that
either return a value or signal an exception record.
-/

namespace JsonRpcBase

/-- A decoded JSON value (the result of `json.loads`).  `bool` is kept apart
from `int` because the Python code uses exact `type(...)` tests, under which
`True` is a `bool`, not an `int`.  Floats occur only in type tests and are
carried opaquely as an `Int` payload. -/
inductive Value where
  | null : Value
  | bool : Bool → Value
  | str : String → Value
  | int : Int → Value
  | float : Int → Value
  | arr : List Value → Value
  | obj : List (String × Value) → Value
  deriving Repr

/-- First-match lookup in an object's field list (Python `rdata.get(k)` /
`rdata[k]`; dict keys are unique so first match is the match). -/
def olookup : List (String × Value) → String → Option Value
  | [], _ => none
  | (k, v) :: rest, key => if k = key then some v else olookup rest key

/-- `rdata.get(k) == s` for a string literal `s`: true exactly when the field
is present and is that string (a non-string value never equals a `str`). -/
def isStrEq (v : Option Value) (s : String) : Bool :=
  match v with
  | some (.str t) => t = s
  | _ => false

/-- The five `JSONRPCError` subclasses defined in the source. -/
inductive ErrKind where
  | parseError
  | invalidRequest
  | methodNotFound
  | internalError
  | serverError
  deriving Repr, DecidableEq

/-- `code` class attribute of each `JSONRPCError` subclass. -/
def ErrKind.code : ErrKind → Int
  | .parseError => -32700
  | .invalidRequest => -32600
  | .methodNotFound => -32601
  | .internalError => -32603
  | .serverError => -32000

/-- `message` class attribute of each `JSONRPCError` subclass. -/
def ErrKind.msg : ErrKind → String
  | .parseError => "Parse error"
  | .invalidRequest => "Invalid Request"
  | .methodNotFound => "Method not found"
  | .internalError => "Internal error"
  | .serverError => "Server error"

/-- A raised `JSONRPCError`: its class plus the optional `data` payload
given at construction. -/
structure JSONRPCError where
  kind : ErrKind
  data : Option Value := none

/-- `JSONRPCError.dumps`: the wire form of the error object
(`code`, `message`, then `data` only when not `None`). -/
def JSONRPCError.dumps (e : JSONRPCError) : Value :=
  .obj ([("code", .int e.kind.code), ("message", .str e.kind.msg)] ++
    (match e.data with
     | some d => [("data", d)]
     | none => []))

/-- The internal version tag held in a request record.  The source stores
either the tuple `(2, 0)`, the tuple `(1, 1)`, or — before `_fill_request`
has run — the *string* `"2.0"` placed there by `_get_default_vals`, which
compares unequal to both tuples.  `defaultStr` models that string. -/
inductive Ver where
  | v20
  | v11
  | defaultStr
  deriving Repr, DecidableEq

/-- Module constant `DEFAULT_JSONRPC = (2, 0)`, the default argument of
`_get_err` and `_invalid_params_response`. -/
def DEFAULT_JSONRPC : Ver := .v20

/-- `_fill_ver`, expressed as the list of version fields it inserts:
the tuple `(2, 0)` stamps `jsonrpc`, `(1, 1)` stamps `version`, and the
string default from `_get_default_vals` matches neither branch so nothing
is stamped. -/
def fill_ver_fields : Ver → List (String × Value)
  | .v20 => [("jsonrpc", .str "2.0")]
  | .v11 => [("version", .str "1.1")]
  | .defaultStr => []

/-- An exception raised by a user handler: its class name and, when the
object has a `message` attribute, that message. -/
structure ExnInfo where
  className : String
  message : Option String := none

/-- A registered handler: called with `(params, metadata)`, it either
returns a value or raises. -/
def Handler : Type := Value → Option Value → Except ExnInfo Value

/-- The pluggable schema-validation capability: given the params value it
returns `none` on success or the validation error's message
(`jsonschema.exceptions.ValidationError.message`) on failure.  A `none`
schema is a falsy schema, which `_call_method` skips. -/
def SchemaCheck : Type := Value → Option String

/-- One entry of `method_data`: `{'method': f, 'schema': schema}`. -/
structure MethodEntry where
  method : Handler
  schema : Option SchemaCheck := none

/-- The service: its `method_data` registry in insertion order. -/
structure JSONRPCService where
  method_data : List (String × MethodEntry) := []

/-- Registry lookup (`self.method_data[name]` / `name in self.method_data`). -/
def JSONRPCService.find (svc : JSONRPCService) (name : String) : Option MethodEntry :=
  match svc.method_data with
  | l => go l
where
  go : List (String × MethodEntry) → Option MethodEntry
  | [] => none
  | (k, e) :: rest => if k = name then some e else go rest

/-- The normalized request record.  `_get_default_vals` initializes
`id = None` and `jsonrpc = "2.0"` (the string, i.e. `defaultStr`); `method`
and `params` are absent keys until `_fill_request` sets them, and are never
read while absent, so they carry inert placeholders here. -/
structure Request where
  id : Option Value := none
  jsonrpc : Ver := .defaultStr
  method : String := ""
  params : Value := .null

/-- `_get_id`: a present `id` must have exact type `str`, `int` or `float`
(so `bool` and `null` are invalid); an absent `id` marks a notification. -/
def get_id (o : List (String × Value)) : Except JSONRPCError (Option Value) :=
  match olookup o "id" with
  | none => .ok none
  | some v =>
    match v with
    | .str s => .ok (some (.str s))
    | .int n => .ok (some (.int n))
    | .float x => .ok (some (.float x))
    | _ => .error ⟨.invalidRequest,
        some (.obj [("details", .str "Invalid type for the `id` field")])⟩

/-- `_get_jsonrpc`: `jsonrpc == "2.0"` wins, then `version == "1.1"`; any
other present version field is invalid, both absent is missing. -/
def get_jsonrpc (o : List (String × Value)) : Except JSONRPCError Ver :=
  if isStrEq (olookup o "jsonrpc") "2.0" then .ok .v20
  else if isStrEq (olookup o "version") "1.1" then .ok .v11
  else if (olookup o "jsonrpc").isSome || (olookup o "version").isSome then
    .error ⟨.invalidRequest, some (.obj [("details", .str "Invalid JSON-RPC version")])⟩
  else
    .error ⟨.invalidRequest, some (.obj [("details", .str "Missing JSON-RPC version")])⟩

/-- `_get_method`: the field must be present, a string, and registered;
`MethodNotFound` data lists the registered method names. -/
def get_method (svc : JSONRPCService) (o : List (String × Value)) :
    Except JSONRPCError String :=
  match olookup o "method" with
  | none => .error ⟨.invalidRequest,
      some (.obj [("details", .str "The required \x22method\x22 field is missing")])⟩
  | some v =>
    match v with
    | .str m =>
      match svc.find m with
      | none => .error ⟨.methodNotFound,
          some (.obj [("available_methods",
            .arr (svc.method_data.map (fun p => .str p.1)))])⟩
      | some _ => .ok m
    | _ => .error ⟨.invalidRequest,
        some (.obj [("details",
          .str "Invalid type for the \x22method\x22 field; must be a string")])⟩

/-- `_get_params`: the source tests `type(params) in (dict, list, None)`.
That tuple holds `None` itself, not `NoneType`, so a `null` params value
fails the test and raises `InvalidRequest`; only objects and arrays pass.
An absent field yields `None`. -/
def get_params (o : List (String × Value)) : Except JSONRPCError Value :=
  match olookup o "params" with
  | none => .ok .null
  | some v =>
    match v with
    | .obj fs => .ok (.obj fs)
    | .arr xs => .ok (.arr xs)
    | _ => .error ⟨.invalidRequest,
        some (.obj [("details", .str "Invalid type for the `params` field")])⟩

/-- `_fill_request`: mutates the passed request field by field, in the fixed
order id, jsonrpc, method, params.  On failure the partially updated request
is what the caller's error handling observes, so it is returned with the
error.  A non-dict input raises `InvalidRequest` with no data. -/
def fill_request (svc : JSONRPCService) (req0 : Request) (rdata : Value) :
    Except (JSONRPCError × Request) Request :=
  match rdata with
  | .obj o =>
    match get_id o with
    | .error e => .error (e, req0)
    | .ok idv =>
      let req1 := { req0 with id := idv }
      match get_jsonrpc o with
      | .error e => .error (e, req1)
      | .ok ver =>
        let req2 := { req1 with jsonrpc := ver }
        match get_method svc o with
        | .error e => .error (e, req2)
        | .ok m =>
          let req3 := { req2 with method := m }
          match get_params o with
          | .error e => .error (e, req3)
          | .ok p => .ok { req3 with params := p }
  | _ => .error (⟨.invalidRequest, none⟩, req0)

/-- An exception crossing `_call_method`'s boundary: a `JSONRPCError`, a
`jsonschema` `ValidationError` (distinct class, carrying its message), or an
uncaught Python exception (`crash`; only the registry `KeyError`, which the
normalizer makes unreachable). -/
inductive CallErr where
  | rpc : JSONRPCError → CallErr
  | validation : String → CallErr
  | crash : CallErr

/-- The `try`/`except` block of `_call_method`: invoke the handler; a
handler exception becomes a `ServerError` whose data holds the class name,
`': ' + message` when the exception has a message, and the method name. -/
def run_handler (entry : MethodEntry) (req : Request) (md : Option Value) :
    Except CallErr Value :=
  match entry.method req.params md with
  | .ok result => .ok result
  | .error exn =>
    .error (.rpc ⟨.serverError,
      some (.obj [("details", .str
        (match exn.message with
         | none => exn.className
         | some m => exn.className ++ ": " ++ m)),
        ("method", .str req.method)])⟩)

/-- `_call_method`: re-fetch the entry (`crash` models the registry
`KeyError`, unreachable after normalization), validate against the schema
when one is attached (truthy), then invoke the handler. -/
def call_method (svc : JSONRPCService) (req : Request) (md : Option Value) :
    Except CallErr Value :=
  match svc.find req.method with
  | none => .error .crash
  | some entry =>
    match entry.schema with
    | none => run_handler entry req md
    | some check =>
      match check req.params with
      | none => run_handler entry req md
      | some m => .error (.validation m)

/-- `_handle_request`: call the method; a notification yields `None`,
otherwise the success envelope is built in insertion order
version-fields, `result`, `id`. -/
def handle_request (svc : JSONRPCService) (req : Request) (md : Option Value) :
    Except CallErr (Option Value) :=
  match call_method svc req md with
  | .error e => .error e
  | .ok result =>
    match req.id with
    | none => .ok none
    | some idv =>
      .ok (some (.obj (fill_ver_fields req.jsonrpc ++
        [("result", result), ("id", idv)])))

/-- `_get_err`: suppressed (returns `None`) exactly when the id is `None`
and the error is neither a `ParseError` nor an `InvalidRequestError`;
otherwise the error envelope is built in insertion order `id`,
version-fields, `error`. -/
def get_err (e : JSONRPCError) (id : Option Value) (ver : Ver := DEFAULT_JSONRPC) :
    Option Value :=
  if id.isNone && !(e.kind = .parseError) && !(e.kind = .invalidRequest) then
    none
  else
    some (.obj (("id", id.getD .null) :: fill_ver_fields ver ++ [("error", e.dumps)]))

/-- `_invalid_params_response`: the response for a `jsonschema`
`ValidationError` — built unconditionally, with no notification check; the
error object holds `message`, `data.details` (the validator's message) and
`code = -32602` in that insertion order. -/
def invalid_params_response (msg : String) (id : Option Value)
    (ver : Ver := DEFAULT_JSONRPC) : Value :=
  .obj (("id", id.getD .null) :: fill_ver_fields ver ++
    [("error", .obj [("message", .str "Invalid params"),
                     ("data", .obj [("details", .str msg)]),
                     ("code", .int (-32602))])])

/-- The top-level exception dispatch of `call_py`: `InvalidRequestError` is
reported via `_get_err` with the *default* version argument, any other
`JSONRPCError` via `_get_err` with the request's recorded version, and a
`ValidationError` via `_invalid_params_response` with the request's recorded
version.  (`crash` never reaches this; see `call_py`.) -/
def handle_call_err (e : CallErr) (req : Request) : Option Value :=
  match e with
  | .rpc err =>
    if err.kind = .invalidRequest then get_err err req.id
    else get_err err req.id req.jsonrpc
  | .validation msg => some (invalid_params_response msg req.id req.jsonrpc)
  | .crash => none

/-- The first batch loop of `call_py`: each raw entry gets a fresh default
request and is normalized; a per-entry `InvalidRequestError` or other
`JSONRPCError` is turned into an error response via `_get_err` with the
default version (appended when not suppressed) and the loop continues.
Returns the normalized requests and the error responses, each in entry
order. -/
def normalize_batch (svc : JSONRPCService) :
    List Value → List Request × List Value
  | [] => ([], [])
  | v :: rest =>
    let tail := normalize_batch svc rest
    match fill_request svc {} v with
    | .ok req => (req :: tail.1, tail.2)
    | .error (e, req') =>
      match get_err e req'.id with
      | some resp => (tail.1, resp :: tail.2)
      | none => tail

/-- The second batch loop of `call_py`: each normalized request is handled;
only `JSONRPCError` is caught per entry (reported with the entry's own id
and version), so a `ValidationError` — or a crash — escapes the loop.
Non-`None` responses are appended to the accumulator. -/
def run_batch (svc : JSONRPCService) (md : Option Value) :
    List Request → List Value → Except CallErr (List Value)
  | [], acc => .ok acc
  | req :: rest, acc =>
    match handle_request svc req md with
    | .ok none => run_batch svc md rest acc
    | .ok (some resp) => run_batch svc md rest (acc ++ [resp])
    | .error (.rpc e) =>
      match get_err e req.id req.jsonrpc with
      | some resp => run_batch svc md rest (acc ++ [resp])
      | none => run_batch svc md rest acc
    | .error e => .error e

/-- `call_py`'s overall outcome: a normal return (`None` or a Python value),
or an exception propagating out of `call_py` (possible only for the
unreachable registry `KeyError`). -/
inductive PyResult where
  | out : Option Value → PyResult
  | crash : PyResult

/-- `call_py`: a non-empty dict is a single request (normalize then handle,
top-level handlers catching `InvalidRequestError`, `JSONRPCError` and
`ValidationError` around the still-visible, possibly partially filled
request); a list is a batch (empty list raises `InvalidRequest`, otherwise
the two loops run and an empty response list becomes `None`); an empty dict
or any other value raises a bare `InvalidRequest`.  Exceptions from the
batch arm reach the same top-level handlers with the untouched default
request. -/
def call_py (svc : JSONRPCService) (rdata : Value) (md : Option Value := none) :
    PyResult :=
  match rdata with
  | .obj o =>
    if o.isEmpty then
      .out (handle_call_err (.rpc ⟨.invalidRequest, none⟩) {})
    else
      match fill_request svc {} (.obj o) with
      | .error (e, req') => .out (handle_call_err (.rpc e) req')
      | .ok req =>
        match handle_request svc req md with
        | .ok r => .out r
        | .error .crash => .crash
        | .error e => .out (handle_call_err e req)
  | .arr entries =>
    if entries.isEmpty then
      .out (handle_call_err
        (.rpc ⟨.invalidRequest,
          some (.obj [("details", .str "Batch request array is empty")])⟩) {})
    else
      let norm := normalize_batch svc entries
      match run_batch svc md norm.1 norm.2 with
      | .ok responds => .out (if responds.isEmpty then none else some (.arr responds))
      | .error .crash => .crash
      | .error e => .out (handle_call_err e {})
  | _ => .out (handle_call_err (.rpc ⟨.invalidRequest, none⟩) {})

/-- `call`, past JSON decoding: the argument is the outcome of
`json.loads(jsondata)` (`.error msg` a `ValueError` with message `msg`).  A
decode failure is answered by serializing `_get_err` of a `ParseError`
carrying the decode message — unconditionally, so the ParseError response is
always produced.  Otherwise the `call_py` result is serialized, with `None`
passed through.  Serialization itself (`json.dumps`) is the identity on this
value model. -/
def call (svc : JSONRPCService) (decoded : Except String Value)
    (md : Option Value := none) : PyResult :=
  match decoded with
  | .error msg =>
    .out (some ((get_err ⟨.parseError,
      some (.obj [("details", .str msg)])⟩ none).getD .null))
  | .ok v => call_py svc v md

/-- The (at most one) response a batch entry contributes during the second
loop of `call_py`: the handled response, or the `_get_err` report of a
caught per-entry `JSONRPCError`; an escaping exception contributes nothing
to the list itself. -/
def entry_out (svc : JSONRPCService) (md : Option Value) (req : Request) :
    Option Value :=
  match handle_request svc req md with
  | .ok o => o
  | .error (.rpc e) => get_err e req.id req.jsonrpc
  | .error _ => none

/-- The normalized request a batch entry contributes to the first loop's
`requests` list (none when normalization raised). -/
def norm_req (svc : JSONRPCService) (v : Value) : Option Request :=
  match fill_request svc {} v with
  | .ok req => some req
  | .error _ => none

/-- The (at most one) error response a batch entry contributes during the
first loop of `call_py` (none when normalization succeeded or the error was
suppressed). -/
def norm_err (svc : JSONRPCService) (v : Value) : Option Value :=
  match fill_request svc {} v with
  | .ok _ => none
  | .error (e, req') => get_err e req'.id

/-- Whether a dispatch outcome is a `jsonschema` `ValidationError` — the one
exception class the batch dispatch loop does not catch per entry. -/
def is_validation_err : Except CallErr (Option Value) → Bool
  | .error (.validation _) => true
  | _ => false

/-- Whether a value is a JSON array (a Python `list`). -/
def Value.isArr : Value → Bool
  | .arr _ => true
  | _ => false

/-! Concrete fixtures: a small registry exercising a plain handler, a
raising handler, and a schema-guarded handler. -/

/-- Fixture handler that returns a constant string. -/
def helloH : Handler := fun _ _ => .ok (.str "Hello world!")

/-- Fixture handler that raises `TypeError` (an exception without a
`message` attribute). -/
def brokenH : Handler := fun _ _ => .error ⟨"TypeError", none⟩

/-- Fixture schema check that rejects every params value with message
`"boom"`. -/
def rejectAll : SchemaCheck := fun _ => some "boom"

/-- Fixture service: `hello` (no schema), `broken` (raising handler),
`strict` (schema that always rejects). -/
def svcFix : JSONRPCService :=
  ⟨[("hello", ⟨helloH, none⟩),
    ("broken", ⟨brokenH, none⟩),
    ("strict", ⟨helloH, some rejectAll⟩)]⟩

/-! ### Helper lemmas -/

theorem isStrEq_true_iff (v : Option Value) (s : String) :
    isStrEq v s = true ↔ v = some (.str s) := by
  cases v with
  | none => simp [isStrEq]
  | some w =>
    cases w <;> simp [isStrEq]

theorem get_jsonrpc_ok_ver {o : List (String × Value)} {ver : Ver}
    (h : get_jsonrpc o = .ok ver) : ver = .v20 ∨ ver = .v11 := by
  unfold get_jsonrpc at h
  split at h
  · exact Or.inl (Except.ok.inj h).symm
  · split at h
    · exact Or.inr (Except.ok.inj h).symm
    · split at h <;> exact absurd h (by simp)

theorem get_method_ok_found {svc : JSONRPCService} {o : List (String × Value)}
    {m : String} (h : get_method svc o = .ok m) : (svc.find m).isSome = true := by
  unfold get_method at h
  split at h
  · exact absurd h (by simp)
  · split at h
    · rename_i v s hfind
      split at h
      · exact absurd h (by simp)
      · rename_i entry hfound
        obtain rfl : s = m := Except.ok.inj h
        simp [hfound]
    · exact absurd h (by simp)

theorem fill_request_ok_inv {svc : JSONRPCService} {r0 req : Request}
    {o : List (String × Value)} (h : fill_request svc r0 (.obj o) = .ok req) :
    get_id o = .ok req.id ∧ get_jsonrpc o = .ok req.jsonrpc ∧
      get_method svc o = .ok req.method ∧ get_params o = .ok req.params := by
  simp only [fill_request] at h
  cases hid : get_id o with
  | error e => simp [hid] at h
  | ok idv =>
    simp only [hid] at h
    cases hver : get_jsonrpc o with
    | error e => simp [hver] at h
    | ok ver =>
      simp only [hver] at h
      cases hm : get_method svc o with
      | error e => simp [hm] at h
      | ok m =>
        simp only [hm] at h
        cases hp : get_params o with
        | error e => simp [hp] at h
        | ok p =>
          simp only [hp] at h
          obtain rfl : ({ id := idv, jsonrpc := ver, method := m, params := p } :
              Request) = req := Except.ok.inj h
          exact ⟨rfl, rfl, rfl, rfl⟩

theorem fill_request_obj_ne_nil {svc : JSONRPCService} {r0 req : Request}
    {o : List (String × Value)} (h : fill_request svc r0 (.obj o) = .ok req) :
    o.isEmpty = false := by
  cases o with
  | nil =>
    have := (fill_request_ok_inv h).2.1
    simp [get_jsonrpc, isStrEq, olookup] at this
  | cons _ _ => rfl

theorem run_handler_rpc_kind {entry : MethodEntry} {req : Request}
    {md : Option Value} {e : JSONRPCError}
    (h : run_handler entry req md = .error (.rpc e)) : e.kind = .serverError := by
  simp only [run_handler] at h
  cases hr : entry.method req.params md with
  | ok r => simp [hr] at h
  | error exn =>
    simp only [hr] at h
    obtain rfl := CallErr.rpc.inj (Except.error.inj h)
    rfl

theorem run_handler_ne_crash (entry : MethodEntry) (req : Request)
    (md : Option Value) : run_handler entry req md ≠ .error .crash := by
  simp only [run_handler]
  cases hr : entry.method req.params md <;> simp

theorem call_method_rpc_kind {svc : JSONRPCService} {req : Request}
    {md : Option Value} {e : JSONRPCError}
    (h : call_method svc req md = .error (.rpc e)) : e.kind = .serverError := by
  simp only [call_method] at h
  cases hf : svc.find req.method with
  | none => simp [hf] at h
  | some entry =>
    simp only [hf] at h
    cases hs : entry.schema with
    | none =>
      simp only [hs] at h
      exact run_handler_rpc_kind h
    | some check =>
      simp only [hs] at h
      cases hc : check req.params with
      | none =>
        simp only [hc] at h
        exact run_handler_rpc_kind h
      | some m => simp [hc] at h

theorem handle_request_rpc_kind {svc : JSONRPCService} {req : Request}
    {md : Option Value} {e : JSONRPCError}
    (h : handle_request svc req md = .error (.rpc e)) : e.kind = .serverError := by
  simp only [handle_request] at h
  cases hc : call_method svc req md with
  | error e' =>
    simp only [hc] at h
    obtain rfl := Except.error.inj h
    exact call_method_rpc_kind hc
  | ok r =>
    simp only [hc] at h
    cases hid : req.id <;> simp [hid] at h

theorem call_method_found_ne_crash {svc : JSONRPCService} {req : Request}
    {md : Option Value} (hf : (svc.find req.method).isSome = true) :
    call_method svc req md ≠ .error .crash := by
  intro hcon
  simp only [call_method] at hcon
  cases hfind : svc.find req.method with
  | none => simp [hfind] at hf
  | some entry =>
    simp only [hfind] at hcon
    cases hs : entry.schema with
    | none =>
      simp only [hs] at hcon
      exact run_handler_ne_crash entry req md hcon
    | some check =>
      simp only [hs] at hcon
      cases hc : check req.params with
      | none =>
        simp only [hc] at hcon
        exact run_handler_ne_crash entry req md hcon
      | some m => simp [hc] at hcon

theorem handle_request_found_ne_crash {svc : JSONRPCService} {req : Request}
    {md : Option Value} (hf : (svc.find req.method).isSome = true) :
    handle_request svc req md ≠ .error .crash := by
  intro hcon
  simp only [handle_request] at hcon
  cases hc : call_method svc req md with
  | error e =>
    simp only [hc] at hcon
    obtain rfl : e = .crash := Except.error.inj hcon
    exact call_method_found_ne_crash hf hc
  | ok r =>
    simp only [hc] at hcon
    cases hid : req.id <;> simp [hid] at hcon

theorem normalize_batch_spec (svc : JSONRPCService) (entries : List Value) :
    normalize_batch svc entries =
      (entries.filterMap (norm_req svc), entries.filterMap (norm_err svc)) := by
  induction entries with
  | nil => rfl
  | cons v rest ih =>
    simp only [normalize_batch, ih, List.filterMap_cons, norm_req, norm_err]
    cases hfill : fill_request svc {} v with
    | ok req => simp [hfill]
    | error p =>
      obtain ⟨e, req'⟩ := p
      cases herr : get_err e req'.id <;> simp [hfill, herr]

theorem norm_req_mem_registered {svc : JSONRPCService} {entries : List Value}
    {req : Request} (h : req ∈ entries.filterMap (norm_req svc)) :
    (svc.find req.method).isSome = true := by
  obtain ⟨v, _, hv⟩ := List.mem_filterMap.mp h
  unfold norm_req at hv
  cases hfill : fill_request svc {} v with
  | error p => simp [hfill] at hv
  | ok req' =>
    simp only [hfill] at hv
    obtain rfl : req' = req := Option.some.inj hv
    cases v with
    | obj o => exact get_method_ok_found (fill_request_ok_inv hfill).2.2.1
    | null => simp [fill_request] at hfill
    | bool b => simp [fill_request] at hfill
    | str s => simp [fill_request] at hfill
    | int n => simp [fill_request] at hfill
    | float x => simp [fill_request] at hfill
    | arr xs => simp [fill_request] at hfill

theorem run_batch_spec (svc : JSONRPCService) (md : Option Value)
    (reqs : List Request) (acc : List Value)
    (hreg : ∀ req ∈ reqs, (svc.find req.method).isSome = true)
    (hnoval : ∀ req ∈ reqs, is_validation_err (handle_request svc req md) = false) :
    run_batch svc md reqs acc =
      .ok (acc ++ reqs.filterMap (entry_out svc md)) := by
  induction reqs generalizing acc with
  | nil => simp [run_batch]
  | cons req rest ih =>
    have hreg' := hreg req (List.mem_cons_self req rest)
    have hnoval' := hnoval req (List.mem_cons_self req rest)
    have ihr : ∀ acc' : List Value, run_batch svc md rest acc' =
        .ok (acc' ++ rest.filterMap (entry_out svc md)) :=
      fun acc' => ih acc' (fun r hr => hreg r (List.mem_cons_of_mem req hr))
        (fun r hr => hnoval r (List.mem_cons_of_mem req hr))
    simp only [run_batch, List.filterMap_cons]
    cases hh : handle_request svc req md with
    | ok o =>
      cases o with
      | none => simp [hh, entry_out, ihr]
      | some resp => simp [hh, entry_out, ihr, List.append_assoc]
    | error e =>
      cases e with
      | rpc err =>
        simp only [hh]
        cases herr : get_err err req.id req.jsonrpc with
        | none => simp [entry_out, hh, herr, ihr]
        | some resp => simp [entry_out, hh, herr, ihr, List.append_assoc]
      | validation m => simp [is_validation_err, hh] at hnoval'
      | crash => exact absurd hh (handle_request_found_ne_crash hreg')

theorem call_py_batch (svc : JSONRPCService) (md : Option Value)
    (entries : List Value) (hne : entries ≠ [])
    (hnoval : ∀ req ∈ entries.filterMap (norm_req svc),
      is_validation_err (handle_request svc req md) = false) :
    call_py svc (.arr entries) md =
      .out (let rs := entries.filterMap (norm_err svc) ++
              (entries.filterMap (norm_req svc)).filterMap (entry_out svc md)
            if rs.isEmpty then none else some (.arr rs)) := by
  have hemp : entries.isEmpty = false := by
    cases entries with
    | nil => exact absurd rfl hne
    | cons _ _ => rfl
  have hrun := run_batch_spec svc md (entries.filterMap (norm_req svc))
    (entries.filterMap (norm_err svc))
    (fun req hr => norm_req_mem_registered hr) hnoval
  simp only [call_py, hemp, normalize_batch_spec, hrun, Bool.false_eq_true,
    if_false]

theorem entry_out_notification (svc : JSONRPCService) (md : Option Value)
    (req : Request) (hid : req.id = none) : entry_out svc md req = none := by
  unfold entry_out
  cases hh : handle_request svc req md with
  | ok o =>
    simp only [handle_request] at hh
    cases hc : call_method svc req md with
    | error e => simp [hc] at hh
    | ok r =>
      simp only [hc, hid] at hh
      exact (Except.ok.inj hh).symm
  | error e =>
    cases e with
    | rpc err =>
      have hkind := handle_request_rpc_kind hh
      simp [get_err, hid, hkind]
    | validation m => rfl
    | crash => rfl

theorem call_py_single (svc : JSONRPCService) (md : Option Value)
    (o : List (String × Value)) (req : Request)
    (hfill : fill_request svc {} (.obj o) = .ok req) :
    call_py svc (.obj o) md =
      match handle_request svc req md with
      | .ok r => .out r
      | .error .crash => .crash
      | .error e => .out (handle_call_err e req) := by
  have hemp := fill_request_obj_ne_nil hfill
  simp only [call_py, hemp, Bool.false_eq_true, if_false, hfill]

theorem call_method_valid {svc : JSONRPCService} {req : Request}
    {md : Option Value} {entry : MethodEntry}
    (hentry : svc.find req.method = some entry)
    (hvalid : ∀ check, entry.schema = some check → check req.params = none) :
    call_method svc req md = run_handler entry req md := by
  simp only [call_method, hentry]
  cases hs : entry.schema with
  | none => rfl
  | some check => simp only [hvalid check hs]

/-- C6: for a registered schema-free handler and a valid non-notification
request naming it, the response is exactly the handler's return value under
`result` with the request's `id`, stamped with the request's dialect
(`jsonrpc = "2.0"` for V2_0, `version = "1.1"` for V1_1), and has no
`error` field. -/
theorem c6_result_wrapping (svc : JSONRPCService) (md : Option Value)
    (o : List (String × Value)) (req : Request) (entry : MethodEntry)
    (idv res : Value)
    (hfill : fill_request svc {} (.obj o) = .ok req)
    (hentry : svc.find req.method = some entry)
    (hschema : entry.schema = none)
    (hid : req.id = some idv)
    (hrun : entry.method req.params md = .ok res) :
    call_py svc (.obj o) md =
      .out (some (.obj (fill_ver_fields req.jsonrpc ++ [("result", res), ("id", idv)])))
    ∧ olookup (fill_ver_fields req.jsonrpc ++ [("result", res), ("id", idv)]) "error" = none
    ∧ (req.jsonrpc = .v20 ∨ req.jsonrpc = .v11)
    ∧ fill_ver_fields .v20 = [("jsonrpc", .str "2.0")]
    ∧ fill_ver_fields .v11 = [("version", .str "1.1")] := by
  have hver := get_jsonrpc_ok_ver (fill_request_ok_inv hfill).2.1
  have hcm : call_method svc req md = .ok res := by
    rw [call_method_valid hentry (fun check hc => absurd (hschema ▸ hc) (by simp))]
    simp only [run_handler, hrun]
  have hhr : handle_request svc req md =
      .ok (some (.obj (fill_ver_fields req.jsonrpc ++ [("result", res), ("id", idv)]))) := by
    simp only [handle_request, hcm, hid]
  refine ⟨?_, ?_, hver, rfl, rfl⟩
  · rw [call_py_single svc md o req hfill, hhr]
  · rcases hver with h | h <;> rw [h] <;> rfl

/-- Witness for C6: `hello` called with id 1 on the fixture service returns
its constant string wrapped with that id in a 2.0 envelope. -/
theorem c6_result_wrapping_witness :
    fill_request svcFix {}
        (.obj [("jsonrpc", .str "2.0"), ("method", .str "hello"), ("id", .int 1)]) =
      .ok { id := some (.int 1), jsonrpc := .v20, method := "hello", params := .null }
  ∧ call_py svcFix
        (.obj [("jsonrpc", .str "2.0"), ("method", .str "hello"), ("id", .int 1)]) none =
      .out (some (.obj [("jsonrpc", .str "2.0"),
        ("result", .str "Hello world!"), ("id", .int 1)])) :=
  ⟨rfl,
   (c6_result_wrapping svcFix none
      [("jsonrpc", .str "2.0"), ("method", .str "hello"), ("id", .int 1)]
      { id := some (.int 1), jsonrpc := .v20, method := "hello", params := .null }
      ⟨helloH, none⟩ (.int 1) (.str "Hello world!") rfl rfl rfl rfl rfl).1⟩

/-- C7: a non-notification request whose handler raises is answered with a
`ServerError` (`-32000`) response whose data holds the exception class name
(extended with `': ' + message` when the exception has a message) and the
method name under `data.method`; the exception does not propagate out of
`call_py` or `call`. -/
theorem c7_server_error (svc : JSONRPCService) (md : Option Value)
    (o : List (String × Value)) (req : Request) (entry : MethodEntry)
    (exn : ExnInfo) (idv : Value)
    (hfill : fill_request svc {} (.obj o) = .ok req)
    (hentry : svc.find req.method = some entry)
    (hvalid : ∀ check, entry.schema = some check → check req.params = none)
    (hid : req.id = some idv)
    (hrun : entry.method req.params md = .error exn) :
    call_py svc (.obj o) md =
      .out (some (.obj (("id", idv) :: fill_ver_fields req.jsonrpc ++
        [("error", .obj [("code", .int (-32000)), ("message", .str "Server error"),
          ("data", .obj [("details", .str
            (match exn.message with
             | none => exn.className
             | some m => exn.className ++ ": " ++ m)),
            ("method", .str req.method)])])])))
    ∧ call svc (.ok (.obj o)) md = call_py svc (.obj o) md := by
  have hcm : call_method svc req md = .error (.rpc ⟨.serverError,
      some (.obj [("details", .str
        (match exn.message with
         | none => exn.className
         | some m => exn.className ++ ": " ++ m)),
        ("method", .str req.method)])⟩) := by
    rw [call_method_valid hentry hvalid]
    simp only [run_handler, hrun]
  refine ⟨?_, rfl⟩
  rw [call_py_single svc md o req hfill]
  simp only [handle_request, hcm, handle_call_err, get_err, JSONRPCError.dumps,
    ErrKind.code, ErrKind.msg, hid]
  rfl

/-- Witness for C7: calling `broken` (whose handler raises `TypeError`)
with id "1" yields the `-32000` response naming the class and the method. -/
theorem c7_server_error_witness :
    fill_request svcFix {}
        (.obj [("jsonrpc", .str "2.0"), ("method", .str "broken"),
          ("params", .arr [.int 5]), ("id", .str "1")]) =
      .ok { id := some (.str "1"), jsonrpc := .v20, method := "broken",
            params := .arr [.int 5] }
  ∧ call_py svcFix
        (.obj [("jsonrpc", .str "2.0"), ("method", .str "broken"),
          ("params", .arr [.int 5]), ("id", .str "1")]) none =
      .out (some (.obj [("id", .str "1"), ("jsonrpc", .str "2.0"),
        ("error", .obj [("code", .int (-32000)), ("message", .str "Server error"),
          ("data", .obj [("details", .str "TypeError"),
            ("method", .str "broken")])])])) :=
  ⟨rfl,
   (c7_server_error svcFix none
      [("jsonrpc", .str "2.0"), ("method", .str "broken"),
        ("params", .arr [.int 5]), ("id", .str "1")]
      { id := some (.str "1"), jsonrpc := .v20, method := "broken",
        params := .arr [.int 5] }
      ⟨brokenH, none⟩ ⟨"TypeError", none⟩ (.str "1") rfl rfl
      (fun _ hc => Option.noConfusion hc) rfl rfl).1⟩


/-- C2 (evaluation of the code at the failing input): `_get_params` rejects
a present `null` params value with `InvalidRequest` — the membership test
`type(params) in (dict, list, None)` compares against `None`, not
`NoneType`, so it never matches — while arrays and objects pass, an absent
field is treated as no-parameters, and other types are rejected; end to
end, a request with `params: null` is answered with `-32600`. -/
theorem c2_params_null_rejected :
    get_params [("params", .null)] = .error ⟨.invalidRequest,
      some (.obj [("details", .str "Invalid type for the `params` field")])⟩
  ∧ get_params [("params", .arr [.int 1])] = .ok (.arr [.int 1])
  ∧ get_params [("params", .obj [("a", .int 1)])] = .ok (.obj [("a", .int 1)])
  ∧ get_params [] = .ok .null
  ∧ get_params [("params", .str "x")] = .error ⟨.invalidRequest,
      some (.obj [("details", .str "Invalid type for the `params` field")])⟩
  ∧ call_py svcFix (.obj [("jsonrpc", .str "2.0"), ("method", .str "hello"),
      ("params", .null), ("id", .int 3)]) none =
      .out (some (.obj [("id", .int 3), ("jsonrpc", .str "2.0"),
        ("error", .obj [("code", .int (-32600)), ("message", .str "Invalid Request"),
          ("data", .obj [("details", .str "Invalid type for the `params` field")])])])) :=
  ⟨rfl, rfl, rfl, rfl, rfl, rfl⟩

/-- C4: a payload that fails JSON decoding is always answered by exactly one
`ParseError` (`-32700`) response with id null, stamped with the default
dialect (`DEFAULT_JSONRPC = (2, 0)`, i.e. `jsonrpc = "2.0"`); it is never
treated as a notification (output is never `None`). -/
theorem c4_parse_error (svc : JSONRPCService) (msg : String) (md : Option Value) :
    call svc (.error msg) md = .out (some (.obj [("id", .null), ("jsonrpc", .str "2.0"),
      ("error", .obj [("code", .int (-32700)), ("message", .str "Parse error"),
        ("data", .obj [("details", .str msg)])])]))
  ∧ fill_ver_fields DEFAULT_JSONRPC = [("jsonrpc", .str "2.0")]
  ∧ call svc (.error msg) md ≠ .out none :=
  ⟨rfl, rfl, fun hcon => Option.noConfusion (PyResult.out.inj hcon)⟩

/-- C5: version extraction yields `V2_0` exactly when `jsonrpc` is the
string `"2.0"`, else `V1_1` exactly when `version` is the string `"1.1"`,
else `InvalidRequest` ("Invalid JSON-RPC version") when either field is
present with another value, and `InvalidRequest` ("Missing JSON-RPC
version") when neither is present. -/
theorem c5_version_extraction (o : List (String × Value)) :
    (get_jsonrpc o = .ok .v20 ↔ olookup o "jsonrpc" = some (.str "2.0"))
  ∧ (get_jsonrpc o = .ok .v11 ↔
      (olookup o "jsonrpc" ≠ some (.str "2.0") ∧
        olookup o "version" = some (.str "1.1")))
  ∧ (get_jsonrpc o = .error ⟨.invalidRequest,
        some (.obj [("details", .str "Invalid JSON-RPC version")])⟩ ↔
      (olookup o "jsonrpc" ≠ some (.str "2.0") ∧
        olookup o "version" ≠ some (.str "1.1") ∧
        ((olookup o "jsonrpc").isSome ∨ (olookup o "version").isSome)))
  ∧ (olookup o "jsonrpc" = none → olookup o "version" = none →
      get_jsonrpc o = .error ⟨.invalidRequest,
        some (.obj [("details", .str "Missing JSON-RPC version")])⟩) := by
  cases hb20 : isStrEq (olookup o "jsonrpc") "2.0" with
  | true =>
    have h20 := (isStrEq_true_iff (olookup o "jsonrpc") "2.0").mp hb20
    have hgj : get_jsonrpc o = .ok .v20 := by
      unfold get_jsonrpc
      rw [hb20]
      rfl
    rw [hgj]
    refine ⟨by simp [h20], by simp [h20], by simp [h20], fun hj hv => ?_⟩
    rw [hj] at h20
    exact Option.noConfusion h20
  | false =>
    have hne20 : olookup o "jsonrpc" ≠ some (.str "2.0") := fun h => by
      rw [(isStrEq_true_iff (olookup o "jsonrpc") "2.0").mpr h] at hb20
      exact Bool.noConfusion hb20
    cases hb11 : isStrEq (olookup o "version") "1.1" with
    | true =>
      have h11 := (isStrEq_true_iff (olookup o "version") "1.1").mp hb11
      have hgj : get_jsonrpc o = .ok .v11 := by
        unfold get_jsonrpc
        rw [hb20, hb11]
        rfl
      rw [hgj]
      refine ⟨by simp [hne20], by simp [hne20, h11], by simp [h11], fun hj hv => ?_⟩
      rw [hv] at h11
      exact Option.noConfusion h11
    | false =>
      have hne11 : olookup o "version" ≠ some (.str "1.1") := fun h => by
        rw [(isStrEq_true_iff (olookup o "version") "1.1").mpr h] at hb11
        exact Bool.noConfusion hb11
      cases hpres : ((olookup o "jsonrpc").isSome || (olookup o "version").isSome) with
      | true =>
        have hgj : get_jsonrpc o = .error ⟨.invalidRequest,
            some (.obj [("details", .str "Invalid JSON-RPC version")])⟩ := by
          unfold get_jsonrpc
          rw [hb20, hb11, hpres]
          rfl
        rw [hgj]
        refine ⟨by simp [hne20], by simp [hne20, hne11],
          ⟨fun _ => ⟨hne20, hne11, by simpa using hpres⟩, fun _ => rfl⟩,
          fun hj hv => ?_⟩
        rw [hj, hv] at hpres
        simp at hpres
      | false =>
        have hgj : get_jsonrpc o = .error ⟨.invalidRequest,
            some (.obj [("details", .str "Missing JSON-RPC version")])⟩ := by
          unfold get_jsonrpc
          rw [hb20, hb11, hpres]
          rfl
        rw [hgj]
        have hsplit : (olookup o "jsonrpc").isSome = false ∧
            (olookup o "version").isSome = false := by simpa using hpres
        refine ⟨by simp [hne20], by simp [hne20, hne11],
          ⟨fun hcon => ?_, fun hrhs => ?_⟩, fun _ _ => rfl⟩
        · exfalso
          simp at hcon
        · exfalso
          rcases hrhs.2.2 with h | h
          · rw [hsplit.1] at h
            exact Bool.noConfusion h
          · rw [hsplit.2] at h
            exact Bool.noConfusion h
/-- Witness for C5: each branch of the extraction evaluated at a concrete
object. -/
theorem c5_version_extraction_witness :
    get_jsonrpc [("jsonrpc", .str "2.0")] = .ok .v20
  ∧ get_jsonrpc [("version", .str "1.1")] = .ok .v11
  ∧ get_jsonrpc [("jsonrpc", .str "9999")] = .error ⟨.invalidRequest,
      some (.obj [("details", .str "Invalid JSON-RPC version")])⟩
  ∧ get_jsonrpc [("method", .str "m")] = .error ⟨.invalidRequest,
      some (.obj [("details", .str "Missing JSON-RPC version")])⟩ :=
  ⟨(c5_version_extraction [("jsonrpc", .str "2.0")]).1.mpr rfl,
   (c5_version_extraction [("version", .str "1.1")]).2.1.mpr
     ⟨fun h => Option.noConfusion h, rfl⟩,
   (c5_version_extraction [("jsonrpc", .str "9999")]).2.2.1.mpr
     ⟨fun h => by simp [olookup] at h, fun h => by simp [olookup] at h,
      Or.inl rfl⟩,
   (c5_version_extraction [("method", .str "m")]).2.2.2 rfl rfl⟩

/-- C9: a request object carrying `id: null` is not a notification — it is
rejected with `InvalidRequest` ("Invalid type for the `id` field") and the
error response carries `id = null`; only a completely absent `id` key marks
a notification. -/
theorem c9_null_id (svc : JSONRPCService) (md : Option Value)
    (o : List (String × Value)) (h : olookup o "id" = some .null) :
    call_py svc (.obj o) md = .out (some (.obj [("id", .null), ("jsonrpc", .str "2.0"),
      ("error", .obj [("code", .int (-32600)), ("message", .str "Invalid Request"),
        ("data", .obj [("details", .str "Invalid type for the `id` field")])])]))
  ∧ (∀ o' : List (String × Value), olookup o' "id" = none → get_id o' = .ok none) := by
  constructor
  · have hemp : o.isEmpty = false := by
      cases o with
      | nil => simp [olookup] at h
      | cons _ _ => rfl
    have hid : get_id o = .error ⟨.invalidRequest,
        some (.obj [("details", .str "Invalid type for the `id` field")])⟩ := by
      simp only [get_id, h]
    have hfill : fill_request svc {} (.obj o) = .error (⟨.invalidRequest,
        some (.obj [("details", .str "Invalid type for the `id` field")])⟩, {}) := by
      simp only [fill_request, hid]
    simp only [call_py, hemp, Bool.false_eq_true, if_false, hfill]
    rfl
  · intro o' h'
    simp [get_id, h']

/-- Witness for C9: the fixture service answers `{"id": null}` with the
concrete `-32600` response. -/
theorem c9_null_id_witness :
    olookup [("id", Value.null)] "id" = some .null
  ∧ call_py svcFix (.obj [("id", .null)]) none =
      .out (some (.obj [("id", .null), ("jsonrpc", .str "2.0"),
        ("error", .obj [("code", .int (-32600)), ("message", .str "Invalid Request"),
          ("data", .obj [("details", .str "Invalid type for the `id` field")])])])) :=
  ⟨rfl, (c9_null_id svcFix none [("id", .null)] rfl).1⟩

/-- C10: `call_py {}` takes the same branch as a non-mapping top-level value
— a bare `InvalidRequest` with the default message, no data field, and id
null — not the normalizer branch, which would instead report a missing
JSON-RPC version. -/
theorem c10_empty_dict (svc : JSONRPCService) (md : Option Value) :
    call_py svc (.obj []) md = .out (some (.obj [("id", .null), ("jsonrpc", .str "2.0"),
      ("error", .obj [("code", .int (-32600)), ("message", .str "Invalid Request")])]))
  ∧ call_py svc (.str "x") md = call_py svc (.obj []) md
  ∧ fill_request svc {} (.obj []) = .error (⟨.invalidRequest,
      some (.obj [("details", .str "Missing JSON-RPC version")])⟩, {}) :=
  ⟨rfl, rfl, rfl⟩

/-- C3 counterexample: a notification (no id) whose params fail schema
validation does produce output — an InvalidParams response with id null —
contradicting the claim that InvalidParams errors for a notification yield
no output. -/
theorem c3_notification_suppression_counterexample :
    call_py svcFix (.obj [("jsonrpc", .str "2.0"), ("method", .str "strict"),
        ("params", .arr [])]) none =
      .out (some (.obj [("id", .null), ("jsonrpc", .str "2.0"),
        ("error", .obj [("message", .str "Invalid params"),
          ("data", .obj [("details", .str "boom")]),
          ("code", .int (-32602))])]))
  ∧ call_py svcFix (.obj [("jsonrpc", .str "2.0"), ("method", .str "strict"),
        ("params", .arr [])]) none ≠ .out none :=
  ⟨rfl, fun hcon => Option.noConfusion (PyResult.out.inj hcon)⟩

/-- C3 (amended): for a notification, `_get_err` suppresses every error
kind except ParseError and InvalidRequest, which always produce a response
carrying id null; but an InvalidParams schema-validation failure is never
suppressed — `_invalid_params_response` builds an id-null response
unconditionally — while a handler exception (ServerError) on a
notification produces no output. -/
theorem c3_notification_suppression (e : JSONRPCError) (ver : Ver) (msg : String) :
    (get_err e none ver = none ↔ (e.kind ≠ .parseError ∧ e.kind ≠ .invalidRequest))
  ∧ ((e.kind = .parseError ∨ e.kind = .invalidRequest) →
      get_err e none ver = some (.obj (("id", .null) :: fill_ver_fields ver ++
        [("error", e.dumps)])))
  ∧ invalid_params_response msg none ver =
      .obj (("id", .null) :: fill_ver_fields ver ++
        [("error", .obj [("message", .str "Invalid params"),
          ("data", .obj [("details", .str msg)]), ("code", .int (-32602))])])
  ∧ (∀ (svc : JSONRPCService) (md : Option Value) (o : List (String × Value))
      (req : Request) (entry : MethodEntry) (exn : ExnInfo),
      fill_request svc {} (.obj o) = .ok req → req.id = none →
      svc.find req.method = some entry →
      (∀ check, entry.schema = some check → check req.params = none) →
      entry.method req.params md = .error exn →
      call_py svc (.obj o) md = .out none) := by
  refine ⟨?_, ?_, rfl, ?_⟩
  · rcases e with ⟨k, d⟩
    cases k <;> simp [get_err]
  · rcases e with ⟨k, d⟩
    intro h
    cases k with
    | parseError => rfl
    | invalidRequest => rfl
    | methodNotFound => rcases h with h | h <;> exact ErrKind.noConfusion h
    | internalError => rcases h with h | h <;> exact ErrKind.noConfusion h
    | serverError => rcases h with h | h <;> exact ErrKind.noConfusion h
  · intro svc md o req entry exn hfill hid hentry hvalid hrun
    have hcm : call_method svc req md = .error (.rpc ⟨.serverError,
        some (.obj [("details", .str
          (match exn.message with
           | none => exn.className
           | some m => exn.className ++ ": " ++ m)),
          ("method", .str req.method)])⟩) := by
      rw [call_method_valid hentry hvalid]
      simp only [run_handler, hrun]
    rw [call_py_single svc md o req hfill]
    simp only [handle_request, hcm, handle_call_err, get_err, hid]
    rfl

/-- Witness for C3 (amended): MethodNotFound suppressed for a notification;
InvalidRequest visible with id null; a notification whose handler raises
produces no output end to end. -/
theorem c3_notification_suppression_witness :
    get_err ⟨.methodNotFound, none⟩ none .v20 = none
  ∧ get_err ⟨.invalidRequest, none⟩ none .v20 =
      some (.obj [("id", .null), ("jsonrpc", .str "2.0"),
        ("error", .obj [("code", .int (-32600)), ("message", .str "Invalid Request")])])
  ∧ call_py svcFix (.obj [("jsonrpc", .str "2.0"), ("method", .str "broken")]) none =
      .out none :=
  ⟨(c3_notification_suppression ⟨.methodNotFound, none⟩ .v20 "x").1.mpr
     ⟨fun h => ErrKind.noConfusion h, fun h => ErrKind.noConfusion h⟩,
   (c3_notification_suppression ⟨.invalidRequest, none⟩ .v20 "x").2.1 (Or.inr rfl),
   (c3_notification_suppression ⟨.invalidRequest, none⟩ .v20 "x").2.2.2 svcFix none
     [("jsonrpc", .str "2.0"), ("method", .str "broken")]
     { id := none, jsonrpc := .v20, method := "broken", params := .null }
     ⟨brokenH, none⟩ ⟨"TypeError", none⟩ rfl rfl rfl
     (fun _ hc => Option.noConfusion hc) rfl⟩

/-- C8: the empty batch is answered by a single InvalidRequest ("Batch
request array is empty") response with id null; in a non-empty batch,
notification entries contribute no response, and when zero responses
remain the batch call returns no output (`None`) rather than an empty
array or an error. -/
theorem c8_batch_empty_and_silent (svc : JSONRPCService) (md : Option Value) :
    call_py svc (.arr []) md = .out (some (.obj [("id", .null), ("jsonrpc", .str "2.0"),
      ("error", .obj [("code", .int (-32600)), ("message", .str "Invalid Request"),
        ("data", .obj [("details", .str "Batch request array is empty")])])]))
  ∧ (∀ req : Request, req.id = none → entry_out svc md req = none)
  ∧ (∀ entries : List Value, entries ≠ [] →
      (∀ req ∈ entries.filterMap (norm_req svc),
        is_validation_err (handle_request svc req md) = false) →
      entries.filterMap (norm_err svc) = [] →
      (entries.filterMap (norm_req svc)).filterMap (entry_out svc md) = [] →
      call_py svc (.arr entries) md = .out none) := by
  refine ⟨rfl, fun req hid => entry_out_notification svc md req hid, ?_⟩
  intro entries hne hnoval herrs houts
  rw [call_py_batch svc md entries hne hnoval]
  simp [herrs, houts]

/-- Witness for C8: the fixture service answers `[]` with the batch-empty
error and an all-notification batch with no output. -/
theorem c8_batch_empty_and_silent_witness :
    call_py svcFix (.arr []) none = .out (some (.obj [("id", .null), ("jsonrpc", .str "2.0"),
      ("error", .obj [("code", .int (-32600)), ("message", .str "Invalid Request"),
        ("data", .obj [("details", .str "Batch request array is empty")])])]))
  ∧ call_py svcFix (.arr [.obj [("jsonrpc", .str "2.0"), ("method", .str "hello")]]) none =
      .out none :=
  ⟨(c8_batch_empty_and_silent svcFix none).1,
   (c8_batch_empty_and_silent svcFix none).2.2
     [.obj [("jsonrpc", .str "2.0"), ("method", .str "hello")]]
     (by simp)
     (fun req h => by
       simp only [show ([.obj [("jsonrpc", .str "2.0"), ("method", .str "hello")]] :
           List Value).filterMap (norm_req svcFix) =
           [{ id := none, jsonrpc := .v20, method := "hello", params := .null }] from rfl,
         List.mem_singleton] at h
       subst h
       rfl)
     rfl rfl⟩

/-- C1 counterexample: in the batch [strict (id 1), hello (id 2)] the schema
validation failure of the first entry escapes the per-entry dispatch loop:
the whole batch output is replaced by a single InvalidParams object (id
null, not an array, carrying no version field), and the second entry's
response never appears — so per-entry isolation fails for InvalidParams. -/
theorem c1_batch_isolation_counterexample :
    call_py svcFix (.arr [
        .obj [("jsonrpc", .str "2.0"), ("method", .str "strict"),
          ("params", .arr []), ("id", .int 1)],
        .obj [("jsonrpc", .str "2.0"), ("method", .str "hello"), ("id", .int 2)]]) none =
      .out (some (.obj [("id", .null),
        ("error", .obj [("message", .str "Invalid params"),
          ("data", .obj [("details", .str "boom")]),
          ("code", .int (-32602))])]))
  ∧ Value.isArr (.obj [("id", .null),
        ("error", .obj [("message", .str "Invalid params"),
          ("data", .obj [("details", .str "boom")]),
          ("code", .int (-32602))])]) = false :=
  ⟨rfl, rfl⟩

/-- C1 (amended): per-entry isolation holds whenever no entry's dispatch
raises a schema-validation error: the batch output is assembled entry by
entry — each entry contributing at most one response (its
normalization-error response, its handled response, or its caught
per-entry JSONRPCError response) — and no entry's failure disturbs its
siblings; a schema-validation failure instead aborts the batch and
replaces its output with a single InvalidParams response (see the
counterexample). -/
theorem c1_batch_isolation (svc : JSONRPCService) (md : Option Value)
    (entries : List Value) (hne : entries ≠ [])
    (hnoval : ∀ req ∈ entries.filterMap (norm_req svc),
      is_validation_err (handle_request svc req md) = false) :
    call_py svc (.arr entries) md =
      .out (let rs := entries.filterMap (norm_err svc) ++
              (entries.filterMap (norm_req svc)).filterMap (entry_out svc md)
            if rs.isEmpty then none else some (.arr rs)) :=
  call_py_batch svc md entries hne hnoval

/-- Witness for C1 (amended): a batch of one malformed entry and one valid
call yields exactly the two per-entry responses. -/
theorem c1_batch_isolation_witness :
    call_py svcFix (.arr [.int 5,
        .obj [("jsonrpc", .str "2.0"), ("method", .str "hello"), ("id", .int 2)]]) none =
      .out (some (.arr [
        .obj [("id", .null), ("jsonrpc", .str "2.0"),
          ("error", .obj [("code", .int (-32600)), ("message", .str "Invalid Request")])],
        .obj [("jsonrpc", .str "2.0"), ("result", .str "Hello world!"), ("id", .int 2)]])) :=
  c1_batch_isolation svcFix none
    [.int 5, .obj [("jsonrpc", .str "2.0"), ("method", .str "hello"), ("id", .int 2)]]
    (by simp)
    (fun req h => by
      simp only [show ([.int 5, .obj [("jsonrpc", .str "2.0"), ("method", .str "hello"),
          ("id", .int 2)]] : List Value).filterMap (norm_req svcFix) =
          [{ id := some (.int 2), jsonrpc := .v20, method := "hello", params := .null }]
          from rfl, List.mem_singleton] at h
      subst h
      rfl)

/-- Witness for C4: a concrete decode failure on the empty service. -/
theorem c4_parse_error_witness :
    call ⟨[]⟩ (.error "Expecting value") none =
      .out (some (.obj [("id", .null), ("jsonrpc", .str "2.0"),
        ("error", .obj [("code", .int (-32700)), ("message", .str "Parse error"),
          ("data", .obj [("details", .str "Expecting value")])])]))
  ∧ call ⟨[]⟩ (.error "Expecting value") none ≠ .out none :=
  ⟨(c4_parse_error ⟨[]⟩ "Expecting value" none).1,
   (c4_parse_error ⟨[]⟩ "Expecting value" none).2.2⟩

/-- Witness for C10: the empty dict evaluated on the empty service. -/
theorem c10_empty_dict_witness :
    call_py (⟨[]⟩ : JSONRPCService) (.obj []) none =
      .out (some (.obj [("id", .null), ("jsonrpc", .str "2.0"),
        ("error", .obj [("code", .int (-32600)), ("message", .str "Invalid Request")])])) :=
  (c10_empty_dict ⟨[]⟩ none).1

end JsonRpcBase
